import Mathlib

/-!
Shallow embedding of the publishing pipeline of `publish_machineid.py` and of
the date fabrication logic of `generate_sample_payloads.py`.

Modelling conventions:
* Parsed JSON documents are `JValue`s; a top-level configuration document is
  the field list of its root object (`load_config` receives the already
  parsed document; file reading and JSON parsing are outside the model, their
  failures being the `ConfigNotFound`/`ConfigMalformed` exits).
* Wall-clock time in `MQTTPublisher.publish` advances in tenths of a second,
  matching the `time.sleep(0.1)` polling step of the source.
* Machine payloads mirror the output shape of `generate_machine_payload` in
  `generate_sample_payloads.py`: a single wrapper key
  `"MachineIdentificationType"` over an inner record that always carries an
  `"AssetId"` field.
* Randomness (`random.randint`) and the environment (broker answers, payload
  generation outcomes) enter as explicit oracle arguments.
* `datetime` values are integers counting microseconds; `timedelta.days` is
  floor division by the number of microseconds per day, as in CPython.
-/

/-- JSON values as produced by `json.load`/`json.loads`.  Numbers are modelled
as integers: every number consumed by the pipeline (port, qos, keepalive,
retry/timeout settings) is integral. -/
inductive JValue where
  | null
  | bool (b : Bool)
  | num (n : Int)
  | str (s : String)
  | arr (elems : List JValue)
  | obj (fields : List (String × JValue))

/-- Python `key in section` membership for a JSON object section.
`load_config` applies it to the `mqtt_broker` value and to machine entries;
non-object values answer `false` (non-mapping sections are outside the
modelled configuration space). -/
def jHasKey (v : JValue) (key : String) : Bool :=
  match v with
  | .obj fields => (fields.lookup key).isSome
  | _ => false

/-- The `ValueError`s raised by `load_config` (all caught and turned into an
`exit(1)` before any broker activity); the spec's `ConfigInvalid` class. -/
inductive ConfigError where
  | missingBrokerSection
  | missingMachines
  | machinesNotArray
  | brokerMissingField (field : String)
  | machineNotObject (i : Nat)
  | machineMissingType (i : Nat)
  | machineMissingTopic (i : Nat)

/-- The per-entry validation loop of `load_config` (lines 43-51): each machine
entry must be an object carrying both a `type` and a `topic` key. -/
def validateMachines : Nat → List JValue → Except ConfigError Unit
  | _, [] => Except.ok ()
  | i, m :: rest =>
    match m with
    | .obj fields =>
      if (fields.lookup "type").isNone then Except.error (ConfigError.machineMissingType i)
      else if (fields.lookup "topic").isNone then Except.error (ConfigError.machineMissingTopic i)
      else validateMachines (i + 1) rest
    | _ => Except.error (ConfigError.machineNotObject i)

/-- Model of `load_config` (lines 19-63) on an already parsed document:
validates the structure in source order and returns the document unchanged on
success. -/
def load_config (doc : List (String × JValue)) : Except ConfigError (List (String × JValue)) :=
  match doc.lookup "mqtt_broker" with
  | none => Except.error ConfigError.missingBrokerSection
  | some broker =>
    match doc.lookup "machines" with
    | none => Except.error ConfigError.missingMachines
    | some machines =>
      match machines with
      | .arr ms =>
        if ¬ jHasKey broker "host" then Except.error (ConfigError.brokerMissingField "host")
        else if ¬ jHasKey broker "port" then Except.error (ConfigError.brokerMissingField "port")
        else
          match validateMachines 0 ms with
          | Except.error e => Except.error e
          | Except.ok _ => Except.ok doc
      | _ => Except.error ConfigError.machinesNotArray

/-- A payload as produced by `generate_machine_payload` of
`generate_sample_payloads.py` (lines 149-176): one wrapper key
`"MachineIdentificationType"` over an inner record whose first field is
`"AssetId"`. -/
structure MachinePayload where
  assetId : String
  innerRest : List (String × JValue)

/-- The inner record `payload["MachineIdentificationType"]`. -/
def MachinePayload.inner (p : MachinePayload) : JValue :=
  JValue.obj (("AssetId", JValue.str p.assetId) :: p.innerRest)

/-- The full payload `{"MachineIdentificationType": {...}}`. -/
def MachinePayload.wrapped (p : MachinePayload) : JValue :=
  JValue.obj [("MachineIdentificationType", p.inner)]

/-- The topic-shape transform of `main` (lines 260-263): strip the wrapper key
when the topic ends with the literal suffix `MachineIdentificationType`,
otherwise keep the payload unchanged. -/
def transformPayload (topic : String) (p : MachinePayload) : JValue :=
  if topic.endsWith "MachineIdentificationType" then p.inner else p.wrapped

/-- One configured machine entry as read by `main` (lines 247-248); `type` and
`topic` must be strings for the Python run not to crash, so the modelled
domain carries them as strings. -/
structure MachineJob where
  type : String
  topic : String

/-- The configuration data `main` consumes after `load_config` succeeds. -/
structure RunConfig where
  jobs : List MachineJob
  publish_timeout : Nat
  retry_attempts : Nat
  retry_delay : Nat

/-- Extraction of one machine entry (`machine_config['type']`,
`machine_config['topic']`); `none` when a value is not a string (the Python
run would crash on such a value, which is outside the modelled domain). -/
def extractJob (m : JValue) : Option MachineJob :=
  match m with
  | .obj fields =>
    match fields.lookup "type", fields.lookup "topic" with
    | some (.str t), some (.str tp) => some ⟨t, tp⟩
    | _, _ => none
  | _ => none

/-- Extraction of the whole machine list. -/
def extractJobs : List JValue → Option (List MachineJob)
  | [] => some []
  | m :: rest =>
    match extractJob m with
    | none => none
    | some j =>
      match extractJobs rest with
      | none => none
      | some js => some (j :: js)

/-- Reading `global_settings.get(key, default)` for an integral setting,
turned into a `Nat` (a negative `retry_attempts` makes `range` empty, like
`0`). -/
def getNatSetting (gs : List (String × JValue)) (key : String) (dflt : Nat) : Option Nat :=
  match gs.lookup key with
  | none => some dflt
  | some (.num n) => some n.toNat
  | some _ => none

/-- The reads `main` performs on a validated document (lines 228, 243,
246-248, 273-275): the machine list and the global settings with their
defaults 30/3/1.  `none` marks documents on which the Python run would crash
(non-string `type`/`topic`, non-object `global_settings`, non-numeric
setting). -/
def extractConfig (doc : List (String × JValue)) : Option RunConfig :=
  match doc.lookup "machines" with
  | some (.arr ms) =>
    match extractJobs ms with
    | some jobs =>
      match (match doc.lookup "global_settings" with
             | none => some []
             | some (.obj fields) => some fields
             | some _ => none) with
      | some gs =>
        match getNatSetting gs "publish_timeout" 30,
              getNatSetting gs "retry_attempts" 3,
              getNatSetting gs "retry_delay" 1 with
        | some pt, some ra, some rd => some ⟨jobs, pt, ra, rd⟩
        | _, _, _ => none
      | none => none
    | none => none
  | _ => none

/-- Observable steps of the per-job retry loop (lines 277-297). -/
inductive REvent where
  | attempt
  | sleepR (secs : Nat)

/-- The body of `for attempt in range(retry_attempts)` (lines 278-294),
driven by the remaining attempt budget: a successful `publish` ends the loop;
a failed one is followed by `time.sleep(retry_delay)` unless it was the final
attempt.  `pub k` is the outcome of attempt number `k` (0-based). -/
def retryGo (pub : Nat → Bool) (rd : Nat) (k : Nat) : Nat → Bool × List REvent
  | 0 => (false, [])
  | 1 => if pub k then (true, [REvent.attempt]) else (false, [REvent.attempt])
  | fuel + 2 =>
    if pub k then (true, [REvent.attempt])
    else
      let t := retryGo pub rd (k + 1) (fuel + 1)
      (t.1, REvent.attempt :: REvent.sleepR rd :: t.2)

/-- The whole retry loop: `published` flag and the observed attempt/sleep
sequence. -/
def retryPublish (pub : Nat → Bool) (ra rd : Nat) : Bool × List REvent :=
  retryGo pub rd 0 ra

/-- Observable events of a run of `main` (from line 230 on). -/
inductive Event where
  | connect
  | generate (job : Nat) (machineType : String)
  | publishAttempt (job : Nat) (topic : String) (value : JValue)
  | sleep (secs : Nat)
  | disconnect

/-- Lifting a retry-loop event of job `i` to a run event: an attempt publishes
the transformed value to the job's topic. -/
def toEvent (i : Nat) (topic : String) (v : JValue) : REvent → Event
  | REvent.attempt => Event.publishAttempt i topic v
  | REvent.sleepR d => Event.sleep d

/-- The job loop of `main` (lines 246-297).  `gen i` is the outcome of
`generate_machine_payload` for job `i` (`none` = generation failed, the job is
skipped with `continue`); `pub i k` is the outcome of attempt `k` of
`publisher.publish` for job `i`.  Returns the number of successful
publications and the event trace. -/
def jobLoop (dryRun : Bool) (ra rd : Nat) (gen : Nat → Option MachinePayload)
    (pub : Nat → Nat → Bool) : Nat → List MachineJob → Nat × List Event
  | _, [] => (0, [])
  | i, job :: rest =>
    match gen i with
    | none =>
      let tail := jobLoop dryRun ra rd gen pub (i + 1) rest
      (tail.1, Event.generate i job.type :: tail.2)
    | some p =>
      if dryRun then
        let tail := jobLoop dryRun ra rd gen pub (i + 1) rest
        (tail.1 + 1, Event.generate i job.type :: tail.2)
      else
        let r := retryPublish (pub i) ra rd
        let tail := jobLoop dryRun ra rd gen pub (i + 1) rest
        ((if r.1 then 1 else 0) + tail.1,
          (Event.generate i job.type ::
            r.2.map (toEvent i job.topic (transformPayload job.topic p))) ++ tail.2)

/-- The run summary counts of lines 300-304. -/
structure Summary where
  total : Nat
  successful : Nat
  failed : Nat

/-- The outcome of a run: process exit code, event trace, and the summary
counts (`none` when the run aborts before the job loop). -/
structure RunResult where
  exitCode : Nat
  events : List Event
  summary : Option Summary

/-- The exit decision of lines 306-317: `exit(1)` when nothing succeeded,
`exit(1)` again when only some succeeded, fall through to exit code 0
otherwise. -/
def exitFor (succ total : Nat) : Nat :=
  if succ = 0 then 1 else if succ < total then 1 else 0

/-- Model of `main` from line 230 on, given a loaded configuration: connect unless
dry-run (exiting 1 before the `try` block when the connection fails), run the
job loop, decide the exit code, and — the `finally` of lines 319-322 — call
`publisher.disconnect()` exactly when `publisher` is not `None`, i.e. in live
mode. -/
def runJobs (dryRun : Bool) (cfg : RunConfig) (connectOk : Bool)
    (gen : Nat → Option MachinePayload) (pub : Nat → Nat → Bool) : RunResult :=
  if dryRun then
    let r := jobLoop true cfg.retry_attempts cfg.retry_delay gen pub 0 cfg.jobs
    ⟨exitFor r.1 cfg.jobs.length, r.2,
      some ⟨cfg.jobs.length, r.1, cfg.jobs.length - r.1⟩⟩
  else if connectOk then
    let r := jobLoop false cfg.retry_attempts cfg.retry_delay gen pub 0 cfg.jobs
    ⟨exitFor r.1 cfg.jobs.length, Event.connect :: r.2 ++ [Event.disconnect],
      some ⟨cfg.jobs.length, r.1, cfg.jobs.length - r.1⟩⟩
  else
    ⟨1, [Event.connect], none⟩

/-- The whole process after argument parsing: `load_config` (an invalid
document exits 1 with no events at all), then the run.  `none` marks
documents outside the modelled domain (the Python process would crash while
reading them). -/
def runFromDoc (dryRun : Bool) (doc : List (String × JValue)) (connectOk : Bool)
    (gen : Nat → Option MachinePayload) (pub : Nat → Nat → Bool) : Option RunResult :=
  match load_config doc with
  | Except.error _ => some ⟨1, [], none⟩
  | Except.ok _ =>
    (extractConfig doc).map (fun cfg => runJobs dryRun cfg connectOk gen pub)

/-- The acknowledgment poll of `MQTTPublisher.publish` (lines 181-190): check
the `publish_results[mid]` flag, sleep 0.1 s while it is unset and the waited
time is below the timeout, and report the flag's final state.  `ack t` is the
flag's value at poll instant `t` (tenths of a second); the budget argument is
the number of sleeps still allowed. -/
def ackPoll (ack : Nat → Bool) : Nat → Nat → Bool
  | t, 0 => ack t
  | t, fuel + 1 => if ack t then true else ackPoll ack (t + 1) fuel

/-- Model of `MQTTPublisher.publish` (lines 155-194): fail fast when not connected (no
network call); issue the network publish and fail on a non-zero paho return
code; otherwise poll for the acknowledgment up to `timeout` seconds.  Every
failure is a `false` return — the surrounding `try/except` turns any raised
exception into `false` as well, so the function is total.  Result:
(returned value, whether a network publish call was issued). -/
def mqttPublish (connected : Bool) (rc : Nat) (ack : Nat → Bool) (timeout : Nat) :
    Bool × Bool :=
  if connected = false then (false, false)
  else if rc ≠ 0 then (false, true)
  else (ackPoll ack 0 (10 * timeout), true)

/-- Number of jobs in `[start, start+n)` whose payload generation succeeds. -/
def genSuccCount (gen : Nat → Option MachinePayload) : Nat → Nat → Nat
  | _, 0 => 0
  | start, n + 1 => (if (gen start).isSome then 1 else 0) + genSuccCount gen (start + 1) n

/-- Length of `timedelta(days=n)` in microseconds. -/
def daysTd (n : Int) : Int := n * 86400000000

/-- The `.days` attribute of a CPython `timedelta`: floor division of the
total length by one day. -/
def timedeltaDays (delta : Int) : Int := Int.fdiv delta 86400000000

/-- The `earliest_operation` computed by `generate_operation_date`
(lines 26-31 of `generate_sample_payloads.py`): the later of the construction
date and ten years ago, reset to the construction date when not before
now. -/
def earliestOperation (now construction_date : Int) : Int :=
  let e := max construction_date (now - daysTd 3650)
  if now ≤ e then construction_date else e

/-- Model of `generate_operation_date` (lines 24-35): `earliest_operation`
plus the random day count `r`, where `r` is drawn by
`random.randint(0, (end_date - earliest_operation).days)`. -/
def generate_operation_date (now construction_date r : Int) : Int :=
  earliestOperation now construction_date + daysTd r

/-- Model of `generate_construction_date` (lines 15-21): twenty years before
now plus the random day count `r` drawn by `random.randint(0, 7300)`. -/
def generate_construction_date (now r : Int) : Int :=
  (now - daysTd 7300) + daysTd r

/-- Test for the retry-loop attempt event. -/
def REvent.isAttempt : REvent → Bool
  | REvent.attempt => true
  | _ => false

/-- Test for a retry-loop sleep event. -/
def REvent.isSleep : REvent → Bool
  | REvent.sleepR _ => true
  | _ => false

/-- Test for a retry-loop sleep event of exactly `d` seconds. -/
def REvent.isSleepOf (d : Nat) : REvent → Bool
  | REvent.sleepR s => s == d
  | _ => false

/-- Number of publish attempts recorded in a retry-loop trace. -/
def countAttempts (l : List REvent) : Nat := l.countP REvent.isAttempt

/-- Number of sleeps recorded in a retry-loop trace. -/
def countSleeps (l : List REvent) : Nat := l.countP REvent.isSleep

/-- Number of sleeps of exactly `d` seconds in a retry-loop trace. -/
def countSleepsOf (d : Nat) (l : List REvent) : Nat := l.countP (REvent.isSleepOf d)

/-- Test for the connect event. -/
def Event.isConnect : Event → Bool
  | Event.connect => true
  | _ => false

/-- Test for the disconnect event. -/
def Event.isDisconnect : Event → Bool
  | Event.disconnect => true
  | _ => false

/-- Test for any network publish event. -/
def Event.isPublish : Event → Bool
  | Event.publishAttempt _ _ _ => true
  | _ => false

/-- Test for a network publish event of job `i`. -/
def publishesOf (i : Nat) : Event → Bool
  | Event.publishAttempt j _ _ => j == i
  | _ => false

/-- Test for the payload-generation event of job `i`. -/
def generatesOf (i : Nat) : Event → Bool
  | Event.generate j _ => j == i
  | _ => false

/-- A broker-session stub that fails the first `N` publish attempts and
succeeds from attempt `N` (0-based) on. -/
def stubFailThenOk (N : Nat) : Nat → Bool := fun k => decide (N ≤ k)

/-- The retry-loop trace of `n` failed attempts, each followed by a sleep of
`d` seconds, closed by one successful attempt. -/
def failThenOkTrace (d : Nat) : Nat → List REvent
  | 0 => [REvent.attempt]
  | n + 1 => REvent.attempt :: REvent.sleepR d :: failThenOkTrace d n

/-- The retry-loop trace of `n` failed attempts with a sleep of `d` seconds
between consecutive attempts and none after the last. -/
def exhaustTrace (d : Nat) : Nat → List REvent
  | 0 => []
  | 1 => [REvent.attempt]
  | n + 2 => REvent.attempt :: REvent.sleepR d :: exhaustTrace d (n + 1)

/-- A parsed configuration document with one machine entry. -/
def docOneJob : List (String × JValue) :=
  [("mqtt_broker", JValue.obj [("host", JValue.str "localhost"), ("port", JValue.num 1883)]),
   ("machines", JValue.arr [JValue.obj [("type", JValue.str "Press"), ("topic", JValue.str "plant/Press")]])]

/-- A parsed configuration document whose `machines` array is empty. -/
def docEmptyMachines : List (String × JValue) :=
  [("mqtt_broker", JValue.obj [("host", JValue.str "localhost"), ("port", JValue.num 1883)]),
   ("machines", JValue.arr [])]

/-- A parsed configuration document whose broker section is missing `host`. -/
def docMissingHost : List (String × JValue) :=
  [("mqtt_broker", JValue.obj [("port", JValue.num 1883)]),
   ("machines", JValue.arr [])]

/-- A sample generated payload. -/
def payload0 : MachinePayload := ⟨"PRESS-1234", []⟩

/-- A payload-generation oracle that always succeeds with `payload0`. -/
def genAll : Nat → Option MachinePayload := fun _ => some payload0

/-- A payload-generation oracle that always fails. -/
def genNone : Nat → Option MachinePayload := fun _ => none

/-- A broker oracle whose publishes always succeed. -/
def pubTrue : Nat → Nat → Bool := fun _ _ => true

/-- A two-job configuration for witnesses. -/
def cfgTwoJobs : RunConfig :=
  ⟨[⟨"Press", "plant/Press"⟩, ⟨"Pump", "plant/Pump/MachineIdentificationType"⟩], 30, 3, 1⟩

/-- The contribution of one job to `successful_publications`: 1 when the job
publishes (or, in dry-run, generates) successfully, 0 otherwise. -/
def jobSuccess (dryRun : Bool) (ra rd : Nat) (gen : Nat → Option MachinePayload)
    (pub : Nat → Nat → Bool) (i : Nat) : Nat :=
  match gen i with
  | none => 0
  | some _ =>
    if dryRun then 1 else if (retryPublish (pub i) ra rd).1 then 1 else 0

/-- The events one job contributes to the run trace. -/
def jobEvents (dryRun : Bool) (ra rd : Nat) (gen : Nat → Option MachinePayload)
    (pub : Nat → Nat → Bool) (i : Nat) (job : MachineJob) : List Event :=
  match gen i with
  | none => [Event.generate i job.type]
  | some p =>
    if dryRun then [Event.generate i job.type]
    else Event.generate i job.type ::
      (retryPublish (pub i) ra rd).2.map (toEvent i job.topic (transformPayload job.topic p))

theorem retryGo_stub_ok (d : Nat) :
    ∀ (n a : Nat), retryGo (stubFailThenOk (a + n)) d a (n + 1) = (true, failThenOkTrace d n)
  | 0, a => by
    simp [retryGo, stubFailThenOk, failThenOkTrace]
  | n + 1, a => by
    have hlt : ¬ (a + (n + 1) ≤ a) := by omega
    have ih := retryGo_stub_ok d n (a + 1)
    rw [show a + 1 + n = a + (n + 1) by omega] at ih
    simp only [retryGo, stubFailThenOk, decide_eq_true_eq, failThenOkTrace]
    rw [if_neg hlt]
    simp [ih]

theorem retryGo_stub_exhaust (d N : Nat) :
    ∀ (n a : Nat), a + n ≤ N → retryGo (stubFailThenOk N) d a n = (false, exhaustTrace d n)
  | 0, a, _ => rfl
  | 1, a, h => by
    have hlt : ¬ (N ≤ a) := by omega
    simp [retryGo, stubFailThenOk, hlt, exhaustTrace]
  | n + 2, a, h => by
    have hlt : ¬ (N ≤ a) := by omega
    have ih := retryGo_stub_exhaust d N (n + 1) (a + 1) (by omega)
    simp [retryGo, stubFailThenOk, hlt, exhaustTrace, ih]

theorem countAttempts_failThenOkTrace (d : Nat) :
    ∀ n, countAttempts (failThenOkTrace d n) = n + 1
  | 0 => rfl
  | n + 1 => by
    simp [failThenOkTrace, countAttempts, List.countP_cons, REvent.isAttempt]
    have := countAttempts_failThenOkTrace d n
    simp [countAttempts] at this
    omega

theorem countSleeps_failThenOkTrace (d : Nat) :
    ∀ n, countSleeps (failThenOkTrace d n) = n
  | 0 => rfl
  | n + 1 => by
    simp [failThenOkTrace, countSleeps, List.countP_cons, REvent.isSleep]
    have := countSleeps_failThenOkTrace d n
    simp [countSleeps] at this
    omega

theorem countSleepsOf_failThenOkTrace (d : Nat) :
    ∀ n, countSleepsOf d (failThenOkTrace d n) = n
  | 0 => rfl
  | n + 1 => by
    simp [failThenOkTrace, countSleepsOf, List.countP_cons, REvent.isSleepOf]
    have := countSleepsOf_failThenOkTrace d n
    simp [countSleepsOf] at this
    omega

theorem countAttempts_exhaustTrace (d : Nat) :
    ∀ n, countAttempts (exhaustTrace d n) = n
  | 0 => rfl
  | 1 => rfl
  | n + 2 => by
    simp [exhaustTrace, countAttempts, List.countP_cons, REvent.isAttempt]
    have := countAttempts_exhaustTrace d (n + 1)
    simp [countAttempts] at this
    omega

theorem countSleeps_exhaustTrace (d : Nat) :
    ∀ n, countSleeps (exhaustTrace d n) = n - 1
  | 0 => rfl
  | 1 => rfl
  | n + 2 => by
    simp [exhaustTrace, countSleeps, List.countP_cons, REvent.isSleep]
    have := countSleeps_exhaustTrace d (n + 1)
    simp [countSleeps] at this
    omega

theorem countAttempts_retryGo (pub : Nat → Bool) (d : Nat) :
    ∀ (fuel a : Nat), countAttempts (retryGo pub d a fuel).2 ≤ fuel
  | 0, a => by simp [retryGo, countAttempts]
  | 1, a => by
    by_cases h : pub a <;> simp [retryGo, h, countAttempts, List.countP_cons, REvent.isAttempt]
  | fuel + 2, a => by
    by_cases h : pub a
    · simp [retryGo, h, countAttempts, List.countP_cons, REvent.isAttempt]
    · have ih := countAttempts_retryGo pub d (fuel + 1) (a + 1)
      simp [retryGo, h, countAttempts, List.countP_cons, REvent.isAttempt, REvent.isSleep] at *
      omega

theorem jobLoop_cons (dr : Bool) (ra rd : Nat) (gen : Nat → Option MachinePayload)
    (pub : Nat → Nat → Bool) (i : Nat) (job : MachineJob) (rest : List MachineJob) :
    jobLoop dr ra rd gen pub i (job :: rest) =
      (jobSuccess dr ra rd gen pub i + (jobLoop dr ra rd gen pub (i + 1) rest).1,
       jobEvents dr ra rd gen pub i job ++ (jobLoop dr ra rd gen pub (i + 1) rest).2) := by
  cases hg : gen i with
  | none => simp [jobLoop, jobSuccess, jobEvents, hg]
  | some p =>
    by_cases hd : dr
    · subst hd
      simp [jobLoop, jobSuccess, jobEvents, hg]
      omega
    · simp only [Bool.not_eq_true] at hd
      subst hd; simp [jobLoop, jobSuccess, jobEvents, hg]

theorem countP_comp_toEvent_publishesOf (k i : Nat) (t : String) (v : JValue) :
    ∀ l : List REvent, l.countP (publishesOf k ∘ toEvent i t v) =
      if i = k then countAttempts l else 0
  | [] => by simp [countAttempts]
  | r :: l => by
    have ih := countP_comp_toEvent_publishesOf k i t v l
    by_cases h : i = k
    · subst h
      cases r <;>
        simp [List.countP_cons, Function.comp, toEvent, publishesOf, countAttempts,
          REvent.isAttempt] at ih ⊢ <;> omega
    · have hbe : (i == k) = false := beq_eq_false_iff_ne.mpr h
      cases r <;>
        simp [List.countP_cons, Function.comp, toEvent, publishesOf, countAttempts,
          REvent.isAttempt, hbe, if_neg h] at ih ⊢ <;> exact ih

theorem countP_comp_toEvent_zero (q : Event → Bool) (i : Nat) (t : String) (v : JValue)
    (hp : ∀ j t2 v2, q (Event.publishAttempt j t2 v2) = false)
    (hs : ∀ s, q (Event.sleep s) = false) :
    ∀ l : List REvent, l.countP (q ∘ toEvent i t v) = 0
  | [] => rfl
  | r :: l => by
    have ih := countP_comp_toEvent_zero q i t v hp hs l
    cases r <;> simp [List.countP_cons, Function.comp, toEvent, hp, hs, ih]

theorem jobEvents_dry (ra rd : Nat) (gen : Nat → Option MachinePayload)
    (pub : Nat → Nat → Bool) (i : Nat) (job : MachineJob) :
    jobEvents true ra rd gen pub i job = [Event.generate i job.type] := by
  cases hg : gen i <;> simp [jobEvents, hg]

theorem countP_jobEvents_generatesOf (dr : Bool) (ra rd : Nat) (gen : Nat → Option MachinePayload)
    (pub : Nat → Nat → Bool) (k i : Nat) (job : MachineJob) :
    (jobEvents dr ra rd gen pub i job).countP (generatesOf k) = if i = k then 1 else 0 := by
  have hz : ∀ l : List REvent, ∀ t v,
      l.countP (generatesOf k ∘ toEvent i t v) = 0 := fun l t v =>
    countP_comp_toEvent_zero (generatesOf k) i t v (fun _ _ _ => rfl) (fun _ => rfl) l
  by_cases h : i = k
  · subst h
    cases hg : gen i with
    | none => simp [jobEvents, hg, List.countP_cons, generatesOf]
    | some p =>
      cases dr <;>
        simp [jobEvents, hg, List.countP_cons, List.countP_map, generatesOf, hz]
  · have hbe : (i == k) = false := beq_eq_false_iff_ne.mpr h
    cases hg : gen i with
    | none => simp [jobEvents, hg, List.countP_cons, generatesOf, hbe, h]
    | some p =>
      cases dr <;>
        simp [jobEvents, hg, List.countP_cons, List.countP_map, generatesOf, hbe, h, hz]

theorem countP_jobEvents_publishesOf_ne (dr : Bool) (ra rd : Nat)
    (gen : Nat → Option MachinePayload) (pub : Nat → Nat → Bool) (k i : Nat) (job : MachineJob)
    (h : i ≠ k) :
    (jobEvents dr ra rd gen pub i job).countP (publishesOf k) = 0 := by
  cases hg : gen i with
  | none => simp [jobEvents, hg, List.countP_cons, publishesOf]
  | some p =>
    cases dr with
    | true => simp [jobEvents, hg, List.countP_cons, publishesOf]
    | false =>
      simp [jobEvents, hg, List.countP_cons, List.countP_map, publishesOf,
        countP_comp_toEvent_publishesOf, if_neg h]

theorem countP_jobEvents_publishesOf_le (dr : Bool) (ra rd : Nat)
    (gen : Nat → Option MachinePayload) (pub : Nat → Nat → Bool) (i : Nat) (job : MachineJob) :
    (jobEvents dr ra rd gen pub i job).countP (publishesOf i) ≤ ra := by
  cases hg : gen i with
  | none => simp [jobEvents, hg, List.countP_cons, publishesOf]
  | some p =>
    cases dr with
    | true => simp [jobEvents, hg, List.countP_cons, publishesOf]
    | false =>
      have hb := countAttempts_retryGo (pub i) rd ra 0
      simp [jobEvents, hg, List.countP_cons, List.countP_map, publishesOf,
        countP_comp_toEvent_publishesOf, countAttempts, retryPublish] at hb ⊢
      exact hb

theorem countP_jobEvents_publishesOf_genNone (dr : Bool) (ra rd : Nat)
    (gen : Nat → Option MachinePayload) (pub : Nat → Nat → Bool) (k i : Nat) (job : MachineJob)
    (h : gen i = none) :
    (jobEvents dr ra rd gen pub i job).countP (publishesOf k) = 0 := by
  simp [jobEvents, h, List.countP_cons, publishesOf]

theorem countP_jobEvents_isConnect (dr : Bool) (ra rd : Nat)
    (gen : Nat → Option MachinePayload) (pub : Nat → Nat → Bool) (i : Nat) (job : MachineJob) :
    (jobEvents dr ra rd gen pub i job).countP Event.isConnect = 0 := by
  have hz : ∀ l : List REvent, ∀ t v, l.countP (Event.isConnect ∘ toEvent i t v) = 0 :=
    fun l t v =>
      countP_comp_toEvent_zero Event.isConnect i t v (fun _ _ _ => rfl) (fun _ => rfl) l
  cases hg : gen i with
  | none => simp [jobEvents, hg, List.countP_cons, Event.isConnect]
  | some p =>
    cases dr <;>
      simp [jobEvents, hg, List.countP_cons, List.countP_map, Event.isConnect, hz]

theorem countP_jobEvents_isDisconnect (dr : Bool) (ra rd : Nat)
    (gen : Nat → Option MachinePayload) (pub : Nat → Nat → Bool) (i : Nat) (job : MachineJob) :
    (jobEvents dr ra rd gen pub i job).countP Event.isDisconnect = 0 := by
  have hz : ∀ l : List REvent, ∀ t v, l.countP (Event.isDisconnect ∘ toEvent i t v) = 0 :=
    fun l t v =>
      countP_comp_toEvent_zero Event.isDisconnect i t v (fun _ _ _ => rfl) (fun _ => rfl) l
  cases hg : gen i with
  | none => simp [jobEvents, hg, List.countP_cons, Event.isDisconnect]
  | some p =>
    cases dr <;>
      simp [jobEvents, hg, List.countP_cons, List.countP_map, Event.isDisconnect, hz]

theorem jobLoop_countP_zero (dr : Bool) (ra rd : Nat) (gen : Nat → Option MachinePayload)
    (pub : Nat → Nat → Bool) (q : Event → Bool)
    (h : ∀ i job, (jobEvents dr ra rd gen pub i job).countP q = 0) :
    ∀ (jobs : List MachineJob) (i : Nat), (jobLoop dr ra rd gen pub i jobs).2.countP q = 0
  | [], _ => by simp [jobLoop]
  | job :: rest, i => by
    have ih := jobLoop_countP_zero dr ra rd gen pub q h rest (i + 1)
    rw [jobLoop_cons]
    simp [List.countP_append, h, ih]

theorem jobLoop_countP_generatesOf (dr : Bool) (ra rd : Nat) (gen : Nat → Option MachinePayload)
    (pub : Nat → Nat → Bool) (k : Nat) :
    ∀ (jobs : List MachineJob) (i : Nat),
      (jobLoop dr ra rd gen pub i jobs).2.countP (generatesOf k) =
        if i ≤ k ∧ k < i + jobs.length then 1 else 0
  | [], i => by
    simp only [jobLoop, List.countP_nil, List.length_nil]
    split <;> omega
  | job :: rest, i => by
    have ih := jobLoop_countP_generatesOf dr ra rd gen pub k rest (i + 1)
    rw [jobLoop_cons]
    simp only [List.countP_append, countP_jobEvents_generatesOf, ih, List.length_cons]
    by_cases h : i = k
    · subst h
      rw [if_pos rfl]
      repeat' split
      all_goals omega
    · rw [if_neg h]
      repeat' split
      all_goals omega

theorem jobLoop_countP_publishesOf_lt (dr : Bool) (ra rd : Nat)
    (gen : Nat → Option MachinePayload) (pub : Nat → Nat → Bool) (k : Nat) :
    ∀ (jobs : List MachineJob) (i : Nat), k < i →
      (jobLoop dr ra rd gen pub i jobs).2.countP (publishesOf k) = 0
  | [], _, _ => by simp [jobLoop]
  | job :: rest, i, h => by
    have ih := jobLoop_countP_publishesOf_lt dr ra rd gen pub k rest (i + 1) (by omega)
    rw [jobLoop_cons]
    simp [List.countP_append, countP_jobEvents_publishesOf_ne dr ra rd gen pub k i job
      (by omega), ih]

theorem jobLoop_countP_publishesOf_le (dr : Bool) (ra rd : Nat)
    (gen : Nat → Option MachinePayload) (pub : Nat → Nat → Bool) (k : Nat) :
    ∀ (jobs : List MachineJob) (i : Nat),
      (jobLoop dr ra rd gen pub i jobs).2.countP (publishesOf k) ≤ ra
  | [], _ => by simp [jobLoop]
  | job :: rest, i => by
    rw [jobLoop_cons]
    rw [List.countP_append]
    by_cases h : i = k
    · subst h
      have h1 := countP_jobEvents_publishesOf_le dr ra rd gen pub i job
      have h2 := jobLoop_countP_publishesOf_lt dr ra rd gen pub i rest (i + 1) (by omega)
      omega
    · have h1 := countP_jobEvents_publishesOf_ne dr ra rd gen pub k i job h
      have h2 := jobLoop_countP_publishesOf_le dr ra rd gen pub k rest (i + 1)
      omega

theorem jobLoop_countP_publishesOf_genNone (dr : Bool) (ra rd : Nat)
    (gen : Nat → Option MachinePayload) (pub : Nat → Nat → Bool) (k : Nat) (h : gen k = none) :
    ∀ (jobs : List MachineJob) (i : Nat),
      (jobLoop dr ra rd gen pub i jobs).2.countP (publishesOf k) = 0
  | [], _ => by simp [jobLoop]
  | job :: rest, i => by
    have ih := jobLoop_countP_publishesOf_genNone dr ra rd gen pub k h rest (i + 1)
    rw [jobLoop_cons, List.countP_append]
    by_cases hk : i = k
    · subst hk
      rw [countP_jobEvents_publishesOf_genNone dr ra rd gen pub i i job h, ih]
    · rw [countP_jobEvents_publishesOf_ne dr ra rd gen pub k i job hk, ih]

theorem jobSuccess_le_one (dr : Bool) (ra rd : Nat) (gen : Nat → Option MachinePayload)
    (pub : Nat → Nat → Bool) (i : Nat) : jobSuccess dr ra rd gen pub i ≤ 1 := by
  cases hg : gen i with
  | none => simp [jobSuccess, hg]
  | some p =>
    cases dr with
    | true => simp [jobSuccess, hg]
    | false =>
      simp [jobSuccess, hg]
      split <;> omega

theorem jobLoop_fst_le (dr : Bool) (ra rd : Nat) (gen : Nat → Option MachinePayload)
    (pub : Nat → Nat → Bool) :
    ∀ (jobs : List MachineJob) (i : Nat), (jobLoop dr ra rd gen pub i jobs).1 ≤ jobs.length
  | [], _ => by simp [jobLoop]
  | job :: rest, i => by
    have ih := jobLoop_fst_le dr ra rd gen pub rest (i + 1)
    have hs := jobSuccess_le_one dr ra rd gen pub i
    rw [jobLoop_cons]
    simp only [List.length_cons]
    omega

theorem jobLoop_dry_fst (ra rd : Nat) (gen : Nat → Option MachinePayload)
    (pub : Nat → Nat → Bool) :
    ∀ (jobs : List MachineJob) (i : Nat),
      (jobLoop true ra rd gen pub i jobs).1 = genSuccCount gen i jobs.length
  | [], _ => by simp [jobLoop, genSuccCount]
  | job :: rest, i => by
    have ih := jobLoop_dry_fst ra rd gen pub rest (i + 1)
    rw [jobLoop_cons]
    cases hg : gen i with
    | none => simp [jobSuccess, hg, genSuccCount, ih]
    | some p => simp [jobSuccess, hg, genSuccCount, ih]

theorem jobLoop_publish_shape (dr : Bool) (ra rd : Nat) (gen : Nat → Option MachinePayload)
    (pub : Nat → Nat → Bool) :
    ∀ (jobs : List MachineJob) (i : Nat), ∀ e ∈ (jobLoop dr ra rd gen pub i jobs).2,
      (match e with
       | Event.publishAttempt j t v => ∃ p, gen j = some p ∧
           v = (if t.endsWith "MachineIdentificationType" then p.inner else p.wrapped)
       | _ => True)
  | [], _ => by simp [jobLoop]
  | job :: rest, i => by
    intro e he
    rw [jobLoop_cons] at he
    rcases List.mem_append.mp he with hh | ht
    · cases hg : gen i with
      | none =>
        simp only [jobEvents, hg, List.mem_singleton] at hh
        subst hh
        trivial
      | some p =>
        cases dr with
        | true =>
          rw [jobEvents_dry] at hh
          simp at hh
          subst hh
          trivial
        | false =>
          simp [jobEvents, hg] at hh
          rcases hh with hh | ⟨r, hrm, hr⟩
          · subst hh; trivial
          · subst hr
            cases r with
            | attempt => exact ⟨p, hg, rfl⟩
            | sleepR s => trivial
    · exact jobLoop_publish_shape dr ra rd gen pub rest (i + 1) e ht

theorem validateMachines_ok_shape :
    ∀ (ms : List JValue) (i : Nat), validateMachines i ms = Except.ok () →
      ∀ m ∈ ms, ∃ fields, m = JValue.obj fields ∧
        (fields.lookup "type").isSome = true ∧ (fields.lookup "topic").isSome = true
  | [], _, _ => by simp
  | m :: rest, i, h => by
    intro x hx
    cases m with
    | obj fields =>
      rw [validateMachines] at h
      by_cases h1 : (fields.lookup "type").isNone
      · rw [if_pos h1] at h; exact absurd h (by simp)
      · rw [if_neg h1] at h
        by_cases h2 : (fields.lookup "topic").isNone
        · rw [if_pos h2] at h; exact absurd h (by simp)
        · rw [if_neg h2] at h
          rcases List.mem_cons.mp hx with hx | hx
          · subst hx
            exact ⟨fields, rfl, by simpa using h1, by simpa using h2⟩
          · exact validateMachines_ok_shape rest (i + 1) h x hx
    | null => simp [validateMachines] at h
    | bool b => simp [validateMachines] at h
    | num n => simp [validateMachines] at h
    | str s => simp [validateMachines] at h
    | arr elems => simp [validateMachines] at h

theorem load_config_ok_shape (doc res : List (String × JValue))
    (h : load_config doc = Except.ok res) :
    res = doc ∧
    (∃ b, doc.lookup "mqtt_broker" = some b ∧
      jHasKey b "host" = true ∧ jHasKey b "port" = true) ∧
    (∃ ms, doc.lookup "machines" = some (JValue.arr ms) ∧
      ∀ m ∈ ms, ∃ fields, m = JValue.obj fields ∧
        (fields.lookup "type").isSome = true ∧ (fields.lookup "topic").isSome = true) := by
  rw [load_config] at h
  split at h
  · exact absurd h (by simp)
  next broker hb =>
    split at h
    · exact absurd h (by simp)
    next machines hm =>
      split at h
      next ms =>
        split at h
        · exact absurd h (by simp)
        next hh =>
          split at h
          · exact absurd h (by simp)
          next hp =>
            split at h
            · exact absurd h (by simp)
            next u hv =>
              cases u
              have hres : doc = res := by simpa using h
              refine ⟨hres.symm, ⟨broker, hb, ?_, ?_⟩,
                ⟨ms, hm, validateMachines_ok_shape ms 0 hv⟩⟩
              · simpa using hh
              · simpa using hp
      next hne => exact absurd h (by simp)

theorem ackPoll_eq_true_iff (ack : Nat → Bool) :
    ∀ (fuel t : Nat), ackPoll ack t fuel = true ↔ ∃ k, k ≤ fuel ∧ ack (t + k) = true
  | 0, t => by
    simp only [ackPoll]
    constructor
    · intro h; exact ⟨0, Nat.le_refl 0, by simpa using h⟩
    · rintro ⟨k, hk, ha⟩
      have : k = 0 := Nat.le_zero.mp hk
      subst this
      simpa using ha
  | fuel + 1, t => by
    rw [ackPoll]
    by_cases h : ack t = true
    · simp only [h, if_true, true_iff]
      exact ⟨0, Nat.zero_le _, by simpa using h⟩
    · rw [if_neg (by simp [h])]
      rw [ackPoll_eq_true_iff ack fuel (t + 1)]
      constructor
      · rintro ⟨k, hk, ha⟩
        exact ⟨k + 1, by omega, by rw [show t + (k + 1) = t + 1 + k by omega]; exact ha⟩
      · rintro ⟨k, hk, ha⟩
        cases k with
        | zero => exact absurd (by simpa using ha) h
        | succ k =>
          exact ⟨k, by omega, by rw [show t + 1 + k = t + (k + 1) by omega]; exact ha⟩

theorem daysTd_le_of_le_timedeltaDays (x r : Int) (hr : r ≤ timedeltaDays x) :
    daysTd r ≤ x := by
  have hfd : Int.fdiv x 86400000000 = x / 86400000000 :=
    Int.fdiv_eq_ediv x (by norm_num)
  rw [timedeltaDays, hfd] at hr
  have hq : x / 86400000000 * 86400000000 ≤ x := by
    have hmod := Int.ediv_add_emod x 86400000000
    have hnn : 0 ≤ x % 86400000000 := Int.emod_nonneg x (by norm_num)
    nlinarith [hmod, hnn]
  have : r * 86400000000 ≤ x / 86400000000 * 86400000000 :=
    mul_le_mul_of_nonneg_right hr (by norm_num)
  rw [daysTd]
  omega

theorem exitFor_spec (s t : Nat) (h : s ≤ t) :
    (exitFor s t = 0 ↔ 0 < t ∧ s = t) ∧ (exitFor s t = 0 ∨ exitFor s t = 1) := by
  unfold exitFor
  refine ⟨?_, ?_⟩ <;> (repeat' split) <;> omega

/-- Claim C2: in live mode each job attempts `publish` at most `retry_attempts`
times; a stub failing `N` times then succeeding yields, with
`retry_attempts = N + 1`, a successful job after exactly `N + 1` attempts with
a sleep of `retry_delay` seconds between consecutive attempts and none after
the final one, the first successful attempt ending the loop; with
`retry_attempts = N` it yields a failed job after exactly `N` attempts. -/
theorem claim_C2_retry_semantics (N d : Nat) (pub : Nat → Bool) (ra : Nat)
    (cfg : RunConfig) (gen : Nat → Option MachinePayload) (pubo : Nat → Nat → Bool)
    (i : Nat) :
    retryPublish (stubFailThenOk N) (N + 1) d = (true, failThenOkTrace d N)
    ∧ retryPublish (stubFailThenOk N) N d = (false, exhaustTrace d N)
    ∧ countAttempts (failThenOkTrace d N) = N + 1
    ∧ countSleeps (failThenOkTrace d N) = N
    ∧ countSleepsOf d (failThenOkTrace d N) = N
    ∧ countAttempts (exhaustTrace d N) = N
    ∧ countSleeps (exhaustTrace d N) = N - 1
    ∧ countAttempts (retryPublish pub ra d).2 ≤ ra
    ∧ (runJobs false cfg true gen pubo).events.countP (publishesOf i) ≤ cfg.retry_attempts := by
  refine ⟨?_, ?_, countAttempts_failThenOkTrace d N, countSleeps_failThenOkTrace d N,
    countSleepsOf_failThenOkTrace d N, countAttempts_exhaustTrace d N,
    countSleeps_exhaustTrace d N, countAttempts_retryGo pub d ra 0, ?_⟩
  · have h := retryGo_stub_ok d N 0
    simpa [retryPublish] using h
  · exact retryGo_stub_exhaust d N N 0 (by omega)
  · have h := jobLoop_countP_publishesOf_le false cfg.retry_attempts cfg.retry_delay gen pubo
      i cfg.jobs 0
    simp only [runJobs, if_true, Bool.false_eq_true, if_false, List.countP_cons,
      List.countP_append]
    simp [publishesOf, List.countP_cons]
    omega

/-- Claim C7: `publish` returns false immediately with no network call when the
session is not connected; otherwise a network call is issued and the call
returns true exactly when the paho return code is success and the
acknowledgment callback marks the message delivered within the timeout,
returning false (never raising: the model is a total function, mirroring the
catch-all `except`) on a broker-level error or on acknowledgment timeout. -/
theorem claim_C7_publish (rc : Nat) (ack : Nat → Bool) (timeout : Nat) :
    mqttPublish false rc ack timeout = (false, false)
    ∧ (mqttPublish true rc ack timeout).2 = true
    ∧ ((mqttPublish true rc ack timeout).1 = true ↔
        rc = 0 ∧ ∃ k, k ≤ 10 * timeout ∧ ack k = true) := by
  refine ⟨rfl, ?_, ?_⟩
  · by_cases hrc : rc = 0 <;> simp [mqttPublish, hrc]
  · by_cases hrc : rc = 0
    · subst hrc
      simp only [mqttPublish]
      rw [if_neg (by simp), if_neg (by simp)]
      have h := ackPoll_eq_true_iff ack (10 * timeout) 0
      simpa using h
    · simp [mqttPublish, hrc]

theorem earliestOperation_bounds (now cd : Int) (hcd : cd ≤ now) :
    cd ≤ earliestOperation now cd ∧ earliestOperation now cd ≤ now := by
  unfold earliestOperation
  by_cases h : now ≤ max cd (now - daysTd 3650)
  · simp only [h, if_true]
    exact ⟨le_refl cd, hcd⟩
  · simp only [h, if_false]
    exact ⟨le_max_left _ _, le_of_not_le h⟩

/-- Claim C10: whenever the construction date is not after the current time,
`generate_operation_date` returns a date between the construction date and
the current time, for every admissible value of the random day count drawn by
`random.randint(0, (end_date - earliest_operation).days)` — hence the
generated `InitialOperationDate` and `SoftwareReleaseDate` are never earlier
than the construction date and never later than the generation time. -/
theorem claim_C10_operation_date (now construction_date r : Int)
    (hcd : construction_date ≤ now) (hr0 : 0 ≤ r)
    (hr1 : r ≤ timedeltaDays (now - earliestOperation now construction_date)) :
    construction_date ≤ generate_operation_date now construction_date r
    ∧ generate_operation_date now construction_date r ≤ now := by
  obtain ⟨he1, he2⟩ := earliestOperation_bounds now construction_date hcd
  have hub := daysTd_le_of_le_timedeltaDays (now - earliestOperation now construction_date) r hr1
  have hlb : 0 ≤ daysTd r := by
    rw [daysTd]
    positivity
  rw [generate_operation_date]
  omega

/-- Claim C1 (amended): in a live run whose connect succeeds, `disconnect` is
invoked exactly once, as the final step, whatever the job outcomes; in a
dry-run no `MQTTPublisher` exists so `disconnect` is never invoked; in a live
run whose connect fails the process exits before the `try/finally`, so
`disconnect` is never invoked either. -/
theorem claim_C1_amended_disconnect (cfg : RunConfig) (gen : Nat → Option MachinePayload)
    (pub : Nat → Nat → Bool) (co : Bool) :
    (runJobs false cfg true gen pub).events.countP Event.isDisconnect = 1
    ∧ (runJobs false cfg true gen pub).events.getLast? = some Event.disconnect
    ∧ (runJobs true cfg co gen pub).events.countP Event.isDisconnect = 0
    ∧ (runJobs false cfg false gen pub).events = [Event.connect] := by
  have hz := jobLoop_countP_zero false cfg.retry_attempts cfg.retry_delay gen pub
    Event.isDisconnect (fun i job => countP_jobEvents_isDisconnect false _ _ gen pub i job)
    cfg.jobs 0
  have hzd := jobLoop_countP_zero true cfg.retry_attempts cfg.retry_delay gen pub
    Event.isDisconnect (fun i job => countP_jobEvents_isDisconnect true _ _ gen pub i job)
    cfg.jobs 0
  refine ⟨?_, ?_, ?_, rfl⟩
  · simp [runJobs, List.countP_cons, List.countP_append, hz, Event.isDisconnect]
  · simp only [runJobs, if_true, Bool.false_eq_true, if_false]
    rw [show Event.connect :: (jobLoop false cfg.retry_attempts cfg.retry_delay gen pub 0
        cfg.jobs).2 ++ [Event.disconnect] =
      (Event.connect :: (jobLoop false cfg.retry_attempts cfg.retry_delay gen pub 0
        cfg.jobs).2) ++ [Event.disconnect] from rfl]
    exact List.getLast?_concat _
  · simp [runJobs, hzd]

/-- Claim C3: every value a run hands to `publisher.publish` is obtained from
the job's topic and the generated payload alone — the inner record with the
wrapper key stripped when the topic ends with the literal suffix
`MachineIdentificationType`, the unchanged wrapped payload otherwise; the
job's machine type does not occur in the published value's computation. -/
theorem claim_C3_topic_transform (dr : Bool) (cfg : RunConfig) (co : Bool)
    (gen : Nat → Option MachinePayload) (pub : Nat → Nat → Bool) :
    List.Forall (fun e => match e with
      | Event.publishAttempt j t v => ∃ p, gen j = some p ∧
          v = (if t.endsWith "MachineIdentificationType" then p.inner else p.wrapped)
      | _ => True) (runJobs dr cfg co gen pub).events := by
  rw [List.forall_iff_forall_mem]
  intro e he
  cases dr with
  | true =>
    simp only [runJobs, if_true] at he
    have h := jobLoop_publish_shape true cfg.retry_attempts cfg.retry_delay gen pub
      cfg.jobs 0 e he
    exact h
  | false =>
    cases co with
    | true =>
      simp only [runJobs, Bool.false_eq_true, if_false, if_true, List.mem_cons,
        List.mem_append, List.mem_singleton] at he
      rcases he with (he | he) | he | he
      · subst he; trivial
      · exact jobLoop_publish_shape false cfg.retry_attempts cfg.retry_delay gen pub
          cfg.jobs 0 e he
      · subst he; trivial
      · simp at he
    | false =>
      simp only [runJobs, Bool.false_eq_true, if_false, List.mem_singleton] at he
      subst he; trivial

/-- Claim C4 (amended): once the run completes its job loop, the exit code is
0 exactly when the job list is non-empty and every configured job succeeded;
when zero jobs succeeded — including the vacuous case of an empty job list —
or when only some succeeded, the exit code is 1; the summary counts all
configured jobs. -/
theorem claim_C4_amended_exit_code (dr : Bool) (cfg : RunConfig)
    (gen : Nat → Option MachinePayload) (pub : Nat → Nat → Bool) :
    ∃ s, (runJobs dr cfg true gen pub).summary = some s
      ∧ s.total = cfg.jobs.length
      ∧ s.successful ≤ s.total
      ∧ s.failed = s.total - s.successful
      ∧ ((runJobs dr cfg true gen pub).exitCode = 0 ↔ 0 < s.total ∧ s.successful = s.total)
      ∧ ((runJobs dr cfg true gen pub).exitCode = 0 ∨
          (runJobs dr cfg true gen pub).exitCode = 1) := by
  cases dr with
  | true =>
    have hle := jobLoop_fst_le true cfg.retry_attempts cfg.retry_delay gen pub cfg.jobs 0
    have hs := exitFor_spec (jobLoop true cfg.retry_attempts cfg.retry_delay gen pub 0
      cfg.jobs).1 cfg.jobs.length hle
    refine ⟨⟨cfg.jobs.length,
      (jobLoop true cfg.retry_attempts cfg.retry_delay gen pub 0 cfg.jobs).1,
      cfg.jobs.length -
        (jobLoop true cfg.retry_attempts cfg.retry_delay gen pub 0 cfg.jobs).1⟩,
      ?_, rfl, hle, rfl, ?_, ?_⟩
    · simp [runJobs]
    · simpa [runJobs] using hs.1
    · simpa [runJobs] using hs.2
  | false =>
    have hle := jobLoop_fst_le false cfg.retry_attempts cfg.retry_delay gen pub cfg.jobs 0
    have hs := exitFor_spec (jobLoop false cfg.retry_attempts cfg.retry_delay gen pub 0
      cfg.jobs).1 cfg.jobs.length hle
    refine ⟨⟨cfg.jobs.length,
      (jobLoop false cfg.retry_attempts cfg.retry_delay gen pub 0 cfg.jobs).1,
      cfg.jobs.length -
        (jobLoop false cfg.retry_attempts cfg.retry_delay gen pub 0 cfg.jobs).1⟩,
      ?_, rfl, hle, rfl, ?_, ?_⟩
    · simp [runJobs]
    · simpa [runJobs] using hs.1
    · simpa [runJobs] using hs.2

/-- Claim C8: a job whose payload generation fails is recorded as failed and
the run continues: in a live run every configured job is processed exactly
once (its generation event appears exactly once in the trace, whatever the
oracles answer), a generation-failed job issues no publish call, and the run
still completes with a summary — generation failure never aborts the run. -/
theorem claim_C8_generation_failure (cfg : RunConfig) (gen : Nat → Option MachinePayload)
    (pub : Nat → Nat → Bool) (j : Nat) (hj : gen j = none) :
    ((runJobs false cfg true gen pub).summary).isSome = true
    ∧ (∀ k, (runJobs false cfg true gen pub).events.countP (generatesOf k) =
        if k < cfg.jobs.length then 1 else 0)
    ∧ (runJobs false cfg true gen pub).events.countP (publishesOf j) = 0 := by
  refine ⟨by simp [runJobs], ?_, ?_⟩
  · intro k
    have h := jobLoop_countP_generatesOf false cfg.retry_attempts cfg.retry_delay gen pub k
      cfg.jobs 0
    simp only [runJobs, Bool.false_eq_true, if_false, if_true, List.countP_cons,
      List.countP_append, h]
    simp [generatesOf]
  · have h := jobLoop_countP_publishesOf_genNone false cfg.retry_attempts cfg.retry_delay
      gen pub j hj cfg.jobs 0
    simp only [runJobs, Bool.false_eq_true, if_false, if_true, List.countP_cons,
      List.countP_append, h]
    simp [publishesOf]

/-- Claim C9: a dry-run performs zero broker interactions — no connect, no
publish, no disconnect — counts exactly the jobs whose payload generation
succeeded as successful, and still produces the full summary over all
configured jobs, with the exit code decided by the same rule as a live
run. -/
theorem claim_C9_dry_run (cfg : RunConfig) (co : Bool) (gen : Nat → Option MachinePayload)
    (pub : Nat → Nat → Bool) :
    (runJobs true cfg co gen pub).events.countP Event.isPublish = 0
    ∧ (runJobs true cfg co gen pub).events.countP Event.isConnect = 0
    ∧ (runJobs true cfg co gen pub).events.countP Event.isDisconnect = 0
    ∧ (runJobs true cfg co gen pub).summary =
        some ⟨cfg.jobs.length, genSuccCount gen 0 cfg.jobs.length,
              cfg.jobs.length - genSuccCount gen 0 cfg.jobs.length⟩
    ∧ (runJobs true cfg co gen pub).exitCode =
        exitFor (genSuccCount gen 0 cfg.jobs.length) cfg.jobs.length := by
  have hp := jobLoop_countP_zero true cfg.retry_attempts cfg.retry_delay gen pub
    Event.isPublish
    (fun i job => by rw [jobEvents_dry]; simp [Event.isPublish]) cfg.jobs 0
  have hc := jobLoop_countP_zero true cfg.retry_attempts cfg.retry_delay gen pub
    Event.isConnect
    (fun i job => by rw [jobEvents_dry]; simp [Event.isConnect]) cfg.jobs 0
  have hd := jobLoop_countP_zero true cfg.retry_attempts cfg.retry_delay gen pub
    Event.isDisconnect
    (fun i job => by rw [jobEvents_dry]; simp [Event.isDisconnect]) cfg.jobs 0
  have hf := jobLoop_dry_fst cfg.retry_attempts cfg.retry_delay gen pub cfg.jobs 0
  exact ⟨by simpa [runJobs] using hp, by simpa [runJobs] using hc,
    by simpa [runJobs] using hd, by simp [runJobs, hf], by simp [runJobs, hf]⟩

/-- Claim C5: for every configuration document missing the broker section,
missing or non-array `machines`, missing `host` or `port`, or with a machine
entry lacking `type` or `topic`, `load_config` fails with a
`ConfigInvalid`-class error and the process exits 1 before any activity: the
event trace is empty, so no broker connection is attempted and no job
runs. -/
theorem claim_C5_invalid_config (doc : List (String × JValue)) (dr co : Bool)
    (gen : Nat → Option MachinePayload) (pub : Nat → Nat → Bool)
    (hbad : doc.lookup "mqtt_broker" = none
      ∨ doc.lookup "machines" = none
      ∨ (∃ v, doc.lookup "machines" = some v ∧ ∀ ms, v ≠ JValue.arr ms)
      ∨ (∃ b, doc.lookup "mqtt_broker" = some b ∧
          (jHasKey b "host" = false ∨ jHasKey b "port" = false))
      ∨ (∃ ms fields, doc.lookup "machines" = some (JValue.arr ms) ∧
          JValue.obj fields ∈ ms ∧
          (fields.lookup "type" = none ∨ fields.lookup "topic" = none))) :
    (∃ e, load_config doc = Except.error e)
    ∧ runFromDoc dr doc co gen pub = some ⟨1, [], none⟩ := by
  have herr : ∃ e, load_config doc = Except.error e := by
    cases hres : load_config doc with
    | error e => exact ⟨e, rfl⟩
    | ok res =>
      exfalso
      obtain ⟨-, ⟨b, hb, hbh, hbp⟩, ⟨ms, hm, hms⟩⟩ := load_config_ok_shape doc res hres
      rcases hbad with h | h | h | h | h
      · rw [h] at hb; exact absurd hb (by simp)
      · rw [h] at hm; exact absurd hm (by simp)
      · obtain ⟨v, hv, hne⟩ := h
        rw [hv] at hm
        exact hne ms (Option.some.inj hm)
      · obtain ⟨b2, hb2, hor⟩ := h
        rw [hb2] at hb
        have hbeq : b2 = b := Option.some.inj hb
        subst hbeq
        rcases hor with hor | hor
        · rw [hbh] at hor; exact absurd hor (by simp)
        · rw [hbp] at hor; exact absurd hor (by simp)
      · obtain ⟨ms2, fields, hm2, hmem, hor⟩ := h
        rw [hm2] at hm
        have hmeq : ms2 = ms := by
          have := Option.some.inj hm
          injection this
        subst hmeq
        obtain ⟨fields2, hfeq, h1, h2⟩ := hms (JValue.obj fields) hmem
        have : fields = fields2 := by injection hfeq
        subst this
        rcases hor with hor | hor
        · rw [hor] at h1; exact absurd h1 (by simp)
        · rw [hor] at h2; exact absurd h2 (by simp)
  obtain ⟨e, he⟩ := herr
  refine ⟨⟨e, he⟩, ?_⟩
  rw [runFromDoc, he]

/-- Claim C6 (amended): every document `load_config` accepts is returned
unchanged and satisfies the validated invariant — the broker section carries
`host` and `port`, `machines` is an array, and each entry is an object
carrying both `type` and `topic`; the job list is however not required to be
non-empty: an empty `machines` array is accepted by the loader. -/
theorem claim_C6_amended_loader_invariant (doc res : List (String × JValue))
    (h : load_config doc = Except.ok res) :
    res = doc ∧
    (∃ b, doc.lookup "mqtt_broker" = some b ∧
      jHasKey b "host" = true ∧ jHasKey b "port" = true) ∧
    (∃ ms, doc.lookup "machines" = some (JValue.arr ms) ∧
      ∀ m ∈ ms, ∃ fields, m = JValue.obj fields ∧
        (fields.lookup "type").isSome = true ∧ (fields.lookup "topic").isSome = true) :=
  load_config_ok_shape doc res h

/-- Counterexample to claim C1 as stated: with a successfully loaded
configuration, a dry-run (where `publisher` stays `None`) and a live run
whose connect fails (which exits before the `try/finally`) both end with zero
`disconnect` invocations, not exactly one. -/
theorem claim_C1_counterexample :
    (load_config docOneJob).isOk = true
    ∧ (runFromDoc true docOneJob true genAll pubTrue).map
        (fun r => r.events.countP Event.isDisconnect) = some 0
    ∧ (runFromDoc false docOneJob false genAll pubTrue).map
        (fun r => r.events.countP Event.isDisconnect) = some 0 :=
  ⟨rfl, rfl, rfl⟩

/-- Counterexample to claim C4 as stated: the loader accepts an empty
`machines` array, and the resulting live run has every configured job
succeeded (zero failed out of zero) yet exits with code 1, refuting
"exit code 0 if and only if every configured job succeeded". -/
theorem claim_C4_counterexample :
    (load_config docEmptyMachines).isOk = true
    ∧ runFromDoc false docEmptyMachines true genAll pubTrue =
        some ⟨1, [Event.connect, Event.disconnect], some ⟨0, 0, 0⟩⟩ :=
  ⟨rfl, rfl⟩

/-- Counterexample to claim C6 as stated: a configuration whose `machines`
array is empty is accepted by `load_config`, not rejected. -/
theorem claim_C6_counterexample :
    load_config docEmptyMachines = Except.ok docEmptyMachines
    ∧ docEmptyMachines.lookup "machines" = some (JValue.arr []) :=
  ⟨rfl, rfl⟩

/-- Witness for claim C5 at a concrete document missing `host`. -/
theorem claim_C5_witness :
    (∃ e, load_config docMissingHost = Except.error e)
    ∧ runFromDoc true docMissingHost true genAll pubTrue = some ⟨1, [], none⟩ :=
  claim_C5_invalid_config docMissingHost true true genAll pubTrue
    (Or.inr (Or.inr (Or.inr (Or.inl
      ⟨JValue.obj [("port", JValue.num 1883)], rfl, Or.inl rfl⟩))))

/-- Witness for claim C6 (amended) at a concrete accepted document. -/
theorem claim_C6_witness :
    docOneJob = docOneJob ∧
    (∃ b, docOneJob.lookup "mqtt_broker" = some b ∧
      jHasKey b "host" = true ∧ jHasKey b "port" = true) ∧
    (∃ ms, docOneJob.lookup "machines" = some (JValue.arr ms) ∧
      ∀ m ∈ ms, ∃ fields, m = JValue.obj fields ∧
        (fields.lookup "type").isSome = true ∧ (fields.lookup "topic").isSome = true) :=
  claim_C6_amended_loader_invariant docOneJob docOneJob rfl

/-- Witness for claim C8 at a concrete two-job run whose generation oracle
always fails. -/
theorem claim_C8_witness :
    ((runJobs false cfgTwoJobs true genNone pubTrue).summary).isSome = true
    ∧ (runJobs false cfgTwoJobs true genNone pubTrue).events.countP (generatesOf 0) = 1
    ∧ (runJobs false cfgTwoJobs true genNone pubTrue).events.countP (publishesOf 0) = 0 := by
  obtain ⟨h1, h2, h3⟩ := claim_C8_generation_failure cfgTwoJobs genNone pubTrue 0 rfl
  refine ⟨h1, ?_, h3⟩
  have h := h2 0
  simpa [cfgTwoJobs] using h

set_option maxRecDepth 8000 in
/-- Witness for claim C10 at a concrete date triple. -/
theorem claim_C10_witness :
    (900 * 86400000000 : Int) ≤
      generate_operation_date (1000 * 86400000000) (900 * 86400000000) 50
    ∧ generate_operation_date (1000 * 86400000000) (900 * 86400000000) 50 ≤
      1000 * 86400000000 :=
  claim_C10_operation_date (1000 * 86400000000) (900 * 86400000000) 50
    (by norm_num) (by norm_num) (by decide)
